import Mathlib

/-!
Verification development for the travel-expense analytics core.

Shallow embedding conventions, used uniformly below:

* Instants are rational numbers measured in days since the Unix epoch
  (`1970-01-01T00:00:00Z` is `0`); one calendar day spans `[d, d + 1)` for an
  integer `d`.  The JS `new Date(x).toISOString().split('T')[0]` truncation of
  a timestamp to its calendar day is therefore `⌊x⌋`.
* Trip `startDate` / `endDate` are calendar dates, i.e. integer day numbers
  (their JS `Date` values are the midnight instants of those days).
* Money amounts are exact rationals; the floating-point arithmetic of the
  source is embedded as exact field arithmetic on `ℚ`.
* The ambient currency converter `convert(amount, from, to)` of
  `useCurrencyConverter` is an explicit function parameter
  `convert : ℚ → String → String → ℚ`, and the `CURRENCY_TO_COUNTRY` lookup
  table is a parameter `lookup : String → Option String`.
* A JS object used as a dictionary keeps its keys in first-insertion order;
  `insertKey` / `dedupKeys` below reproduce exactly that key order, and a
  lookup that may miss (`map.get(k) || 0`) is embedded as a total function
  returning the group's (possibly empty) sum.
* `Array.prototype.sort` is stable (ES2019) and the source always sorts with
  comparators of the form `(a, b) => b.v - a.v`; this is embedded as
  `List.mergeSort` (stable) with the boolean order `b.v ≤ a.v`.
-/

/-- An expense record (data model §3 of the spec, as used by the components):
`date` is a full-precision timestamp in days, `country` an optional explicit
override of the currency→country lookup. -/
structure Expense where
  amount : ℚ
  currency : String
  category : String
  description : String
  date : ℚ
  country : Option String := none
  deriving DecidableEq, Inhabited

/-- A trip (data model §3): `startDate ≤ endDate` is an invariant of the data
model, `totalBudget ≥ 0`, `countries` the declared country list. -/
structure Trip where
  startDate : ℤ
  endDate : ℤ
  mainCurrency : String
  totalBudget : ℚ
  countries : List String
  deriving DecidableEq, Inhabited

/-- A category registry entry (icon looked up by name). -/
structure Category where
  name : String
  icon : String
  deriving DecidableEq, Inhabited

/-- Inserting a key into a JS object's key sequence: a new key is appended,
an existing key keeps its original position. -/
def insertKey {α : Type} [DecidableEq α] (ks : List α) (k : α) : List α :=
  if k ∈ ks then ks else ks ++ [k]

/-- The key sequence of a JS object built by iterating over `l` and writing
one entry per element: first-seen order, no duplicates. -/
def dedupKeys {α : Type} [DecidableEq α] (l : List α) : List α :=
  l.foldl insertKey []

namespace AdvancedBudgetChart

/-- One element of the `dataPoints` array built by `chartData` in
`AdvancedBudgetChart.tsx` (the fields used by the charts; display-formatted
`date` strings are presentation only and omitted). -/
structure DataPoint where
  fullDate : ℤ
  spesaGiornaliera : Option ℚ
  spesaCumulativa : ℚ
  budgetCumulativoIdeale : ℚ
  deriving DecidableEq

/-- The `dailySpending` map of `AdvancedBudgetChart.tsx` (lines 24–29), read
back at a day key: the sum, in the trip's main currency, of the expenses whose
date truncates to that calendar day (`dailySpending.get(dateStr) || 0`). -/
def dailySpending (convert : ℚ → String → String → ℚ) (mainCurrency : String)
    (expenses : List Expense) (d : ℤ) : ℚ :=
  ((expenses.filter (fun e => ⌊e.date⌋ == d)).map
    (fun e => convert e.amount e.currency mainCurrency)).sum

/-- The `while (currentDate <= lastDate)` loop of `chartData` (lines 43–57):
the loop body runs once per calendar day; `n` is the number of remaining
iterations, `currentDate` steps by one day, `cumulativeSpent` and
`daysElapsed` accumulate exactly as in the source. -/
def chartLoop (spend : ℤ → ℚ) (idealDailyBurn : ℚ) :
    ℕ → ℤ → ℚ → ℕ → List DataPoint
  | 0, _, _, _ => []
  | n + 1, currentDate, cumulativeSpent, daysElapsed =>
    let spentToday := spend currentDate
    let cum := cumulativeSpent + spentToday
    let de := daysElapsed + 1
    { fullDate := currentDate
      spesaGiornaliera := if spentToday > 0 then some spentToday else none
      spesaCumulativa := cum
      budgetCumulativoIdeale := idealDailyBurn * de } ::
      chartLoop spend idealDailyBurn n (currentDate + 1) cum de

/-- `chartData` of `AdvancedBudgetChart.tsx` (lines 16–59).  `today` is the
calendar day of `new Date()`: the source immediately calls
`today.setHours(23, 59, 59, 999)`, after which every comparison against a
midnight instant (`tripStart`, `tripEnd`, `currentDate`) depends only on the
calendar day, so end-of-day `today < tripEnd` is `today < trip.endDate`,
`lastDate < tripStart` is `lastDate < trip.startDate`, and the loop guard
`currentDate <= lastDate` makes the loop run `(lastDate + 1 - startDate)`
times (when that is positive). -/
def chartData (convert : ℚ → String → String → ℚ) (trip : Trip)
    (expenses : List Expense) (today : ℤ) : List DataPoint :=
  let totalTripDuration : ℚ := max 1 (((trip.endDate - trip.startDate : ℤ) : ℚ) + 1)
  let idealDailyBurn : ℚ := if trip.totalBudget > 0 then trip.totalBudget / totalTripDuration else 0
  let lastDate : ℤ := if today < trip.endDate then today else trip.endDate
  if lastDate < trip.startDate then []
  else
    chartLoop (dailySpending convert trip.mainCurrency expenses) idealDailyBurn
      (lastDate + 1 - trip.startDate).toNat trip.startDate 0 0

end AdvancedBudgetChart

namespace CategoryChart

/-- One element of the `dataByCategory` array of `CategoryChart.tsx`
(the display icon lookup is presentation only and omitted). -/
structure CategorySlice where
  name : String
  amount : ℚ
  percentage : ℚ
  deriving DecidableEq

/-- The keys of the `spending` object of `dataByCategory`
(`CategoryChart.tsx` lines 57–61): category names in first-seen order. -/
def categoryKeys (expenses : List Expense) : List String :=
  dedupKeys (expenses.map (·.category))

/-- The value stored in the `spending` object at a category name: the sum of
that category's expense amounts converted to the main currency. -/
def categorySpend (convert : ℚ → String → String → ℚ) (mainCurrency : String)
    (expenses : List Expense) (c : String) : ℚ :=
  ((expenses.filter (fun e => e.category == c)).map
    (fun e => convert e.amount e.currency mainCurrency)).sum

/-- `totalSpent` of `dataByCategory` (line 63): the sum of the per-category
group sums. -/
def totalSpent (convert : ℚ → String → String → ℚ) (mainCurrency : String)
    (expenses : List Expense) : ℚ :=
  ((categoryKeys expenses).map (categorySpend convert mainCurrency expenses)).sum

/-- The slice built for one category key by `dataByCategory` (lines 66–71):
percentage guarded by `totalSpent > 0`. -/
def categorySlice (convert : ℚ → String → String → ℚ) (mainCurrency : String)
    (expenses : List Expense) (c : String) : CategorySlice :=
  { name := c
    amount := categorySpend convert mainCurrency expenses c
    percentage :=
      if totalSpent convert mainCurrency expenses > 0 then
        categorySpend convert mainCurrency expenses c / totalSpent convert mainCurrency expenses * 100
      else 0 }

/-- `dataByCategory` of `CategoryChart.tsx` (lines 56–74): one slice per
category in key order, then a stable descending sort by amount. -/
def dataByCategory (convert : ℚ → String → String → ℚ) (mainCurrency : String)
    (expenses : List Expense) : List CategorySlice :=
  ((categoryKeys expenses).map (categorySlice convert mainCurrency expenses)).mergeSort
    (fun a b => decide (b.amount ≤ a.amount))

end CategoryChart

namespace StatsSummary

/-- An expense paired with `mainAmount`, its amount converted to the trip's
main currency (`expensesInMainCurrency`, `StatsSummary.tsx` lines 38–41). -/
structure ConvertedExpense where
  expense : Expense
  mainAmount : ℚ
  deriving DecidableEq

/-- The value computed by the `summary` memo of `StatsSummary.tsx`. -/
structure Summary where
  largestExpense : Option ConvertedExpense
  highestSpendingDay : Option (ℤ × ℚ)
  mostFrequentCategory : Option (String × ℕ × Option String)
  avgTransaction : ℚ
  deriving DecidableEq

/-- The `summary` memo of `StatsSummary.tsx` (lines 28–74).  The empty-input
branch (lines 29–36) returns three `null` highlights and a zero average; the
non-empty branch sorts stably by the relevant measure, descending, and takes
the first element, exactly as the source's `sort(...)[0]`. -/
def summary (convert : ℚ → String → String → ℚ) (categories : List Category)
    (mainCurrency : String) (expenses : List Expense) : Summary :=
  if expenses.length = 0 then
    { largestExpense := none
      highestSpendingDay := none
      mostFrequentCategory := none
      avgTransaction := 0 }
  else
    let expensesInMainCurrency : List ConvertedExpense := expenses.map (fun e =>
      { expense := e, mainAmount := convert e.amount e.currency mainCurrency })
    let largestExpense :=
      (expensesInMainCurrency.mergeSort (fun a b => decide (b.mainAmount ≤ a.mainAmount))).head?
    let dayKeys := dedupKeys (expenses.map (fun e => ⌊e.date⌋))
    let daySpend : ℤ → ℚ := fun d =>
      ((expensesInMainCurrency.filter (fun ce => ⌊ce.expense.date⌋ == d)).map
        (·.mainAmount)).sum
    let highestSpendingDayEntry :=
      ((dayKeys.map (fun d => (d, daySpend d))).mergeSort
        (fun a b => decide (b.2 ≤ a.2))).head?
    let catKeys := dedupKeys (expenses.map (·.category))
    let categoryCount : String → ℕ := fun c =>
      (expenses.filter (fun e => e.category == c)).length
    let mostFrequentCategoryEntry :=
      ((catKeys.map (fun c => (c, categoryCount c))).mergeSort
        (fun a b => decide (b.2 ≤ a.2))).head?
    let total := (expensesInMainCurrency.map (·.mainAmount)).sum
    { largestExpense := largestExpense
      highestSpendingDay := highestSpendingDayEntry
      mostFrequentCategory := mostFrequentCategoryEntry.map (fun p =>
        (p.1, p.2, (categories.find? (fun c => c.name == p.1)).map (·.icon)))
      avgTransaction := total / expenses.length }

end StatsSummary

namespace Dashboard

/-- The `dateFilter` state of the dashboard: 'all' | 'today' | 'week' | 'month'. -/
inductive DateFilter
  | all
  | today
  | week
  | month
  deriving DecidableEq

/-- JS `Date.prototype.getDay` on a calendar-day number: 0 = Sunday … 6 =
Saturday.  Day 0 (1970-01-01) was a Thursday, hence the offset 4. -/
def jsGetDay (d : ℤ) : ℤ :=
  (d + 4) % 7

/-- The `firstDayOfWeek` computed by the week branch of `filteredExpenses`
(`Dashboard`, lines 232–238): `now.getDate() - dayOfWeek + (dayOfWeek === 0 ?
-6 : 1)` followed by `setHours(0,0,0,0)`, i.e. the midnight of the day shifted
back to the week's Monday (Sunday rolls back 6 days). -/
def weekStart (nowDay : ℤ) : ℤ :=
  let dayOfWeek := jsGetDay nowDay
  nowDay - dayOfWeek + (if dayOfWeek = 0 then -6 else 1)

/-- Proleptic-Gregorian civil date `(year, month 1..12, day 1..31)` of a
day number (days since 1970-01-01); the standard era/day-of-era conversion.
All intermediate divisions have nonnegative dividends except `era`, where `/`
on `ℤ` (Euclidean, here floor, division) is exactly what is needed. -/
def civilFromDays (z : ℤ) : ℤ × ℤ × ℤ :=
  let z' := z + 719468
  let era := z' / 146097
  let doe := z' - era * 146097
  let yoe := (doe - doe / 1460 + doe / 36524 - doe / 146096) / 365
  let y := yoe + era * 400
  let doy := doe - (365 * yoe + yoe / 4 - yoe / 100)
  let mp := (5 * doy + 2) / 153
  let d := doy - (153 * mp + 2) / 5 + 1
  let m := mp + if mp < 10 then 3 else -9
  (y + (if m ≤ 2 then 1 else 0), m, d)

/-- JS `Date.prototype.getMonth` (0-based month) of a calendar-day number. -/
def jsGetMonth (d : ℤ) : ℤ :=
  (civilFromDays d).2.1 - 1

/-- JS `Date.prototype.getFullYear` of a calendar-day number. -/
def jsGetFullYear (d : ℤ) : ℤ :=
  (civilFromDays d).1

/-- The `filteredExpenses` memo of the dashboard (lines 225–252): a date
predicate chosen by `dateFilter` (today: same calendar day as `now`; week:
date ≥ the Monday midnight `weekStart`; month: same month and year as `now`),
then, only when some categories are selected, the category-inclusion
predicate.  Both stages are plain `filter`s, so order is preserved. -/
def filteredExpenses (dateFilter : DateFilter) (selectedCategories : List String)
    (now : ℚ) (sortedExpenses : List Expense) : List Expense :=
  let expenses :=
    match dateFilter with
    | .all => sortedExpenses
    | .today => sortedExpenses.filter (fun e => ⌊e.date⌋ == ⌊now⌋)
    | .week => sortedExpenses.filter (fun e => decide ((weekStart ⌊now⌋ : ℚ) ≤ e.date))
    | .month => sortedExpenses.filter (fun e =>
        jsGetMonth ⌊e.date⌋ == jsGetMonth ⌊now⌋ && jsGetFullYear ⌊e.date⌋ == jsGetFullYear ⌊now⌋)
  if selectedCategories.length > 0 then
    expenses.filter (fun e => selectedCategories.contains e.category)
  else expenses

end Dashboard

namespace ExpenseCalendarHeatmap

/-- The fold of `ExpenseCalendarHeatmap.tsx` lines 15–30 building the
`dailyData` map (day → total in main currency) together with the running
maximum `maxSpend` of the updated day totals. -/
def dailyDataMax (convert : ℚ → String → String → ℚ) (mainCurrency : String)
    (expenses : List Expense) : (ℤ → ℚ) × ℚ :=
  expenses.foldl
    (fun acc e =>
      let d := ⌊e.date⌋
      let amount := convert e.amount e.currency mainCurrency
      let newTotal := acc.1 d + amount
      (fun d' => if d' = d then newTotal else acc.1 d',
       if newTotal > acc.2 then newTotal else acc.2))
    (fun _ => 0, 0)

/-- The `maxSpend` value of `ExpenseCalendarHeatmap.tsx`. -/
def maxSpend (convert : ℚ → String → String → ℚ) (mainCurrency : String)
    (expenses : List Expense) : ℚ :=
  (dailyDataMax convert mainCurrency expenses).2

/-- `getColor` of `ExpenseCalendarHeatmap.tsx` (lines 61–71).  The source
compares `Math.sqrt(amount / maxSpend)` against the thresholds 0.25, 0.5,
0.75; since the square root is strictly monotone on nonnegative reals and the
thresholds are positive, `Math.sqrt(x) < t` is embedded as `x < t ^ 2`.  When
`maxSpend ≤ 0 < amount` the JS quotient is `Infinity` (or `NaN` for a negative
`maxSpend`), every `<` threshold test is false, and the last branch is taken. -/
def getColor (maxSpend : ℚ) (amount : ℚ) : String :=
  if amount ≤ 0 then "bg-surface-variant/50"
  else if maxSpend ≤ 0 then "bg-primary"
  else if amount / maxSpend < (1 / 4 : ℚ) ^ 2 then "bg-primary-container/40"
  else if amount / maxSpend < (1 / 2 : ℚ) ^ 2 then "bg-primary-container/70"
  else if amount / maxSpend < (3 / 4 : ℚ) ^ 2 then "bg-primary-container"
  else "bg-primary"

end ExpenseCalendarHeatmap

namespace CountrySpendChart

/-- One element of the `chartData` array of `CountrySpendChart.tsx`. -/
structure CountrySlice where
  country : String
  amount : ℚ
  deriving DecidableEq

/-- The country key of an expense (`CountrySpendChart.tsx` line 22):
`e.country || CURRENCY_TO_COUNTRY[e.currency]`, where the lookup table is the
parameter `lookup`.  JS truthiness: an empty-string country (whether explicit
or from the lookup) counts as absent. -/
def resolveCountry (lookup : String → Option String) (e : Expense) : Option String :=
  let c :=
    match e.country with
    | some c => if c = "" then lookup e.currency else some c
    | none => lookup e.currency
  match c with
  | some c' => if c' = "" then none else some c'
  | none => none

/-- The amount accumulated into `spendingByCountry[c]` for a declared country
`c` (lines 18–27): the converted total of the expenses resolving to `c`
(expenses resolving to no country, or to an undeclared one, fail the
`country && spendingByCountry.hasOwnProperty(country)` test and are skipped). -/
def countryTotal (convert : ℚ → String → String → ℚ) (lookup : String → Option String)
    (mainCurrency : String) (expenses : List Expense) (c : String) : ℚ :=
  ((expenses.filter (fun e => resolveCountry lookup e == some c)).map
    (fun e => convert e.amount e.currency mainCurrency)).sum

/-- The `{ country, amount }` entry built for one declared country. -/
def countrySlice (convert : ℚ → String → String → ℚ) (lookup : String → Option String)
    (mainCurrency : String) (expenses : List Expense) (c : String) : CountrySlice :=
  { country := c
    amount := countryTotal convert lookup mainCurrency expenses c }

/-- `chartData` of `CountrySpendChart.tsx` (lines 15–37): empty when at most
one country is declared; otherwise one entry per declared country (object key
order), keeping only strictly positive totals, stably sorted descending. -/
def chartData (convert : ℚ → String → String → ℚ) (lookup : String → Option String)
    (trip : Trip) (expenses : List Expense) : List CountrySlice :=
  if trip.countries.length ≤ 1 then []
  else
    (((dedupKeys trip.countries).map
      (countrySlice convert lookup trip.mainCurrency expenses)).filter
        (fun item => decide (item.amount > 0))).mergeSort
      (fun a b => decide (b.amount ≤ a.amount))

end CountrySpendChart

namespace AIInsights

/-- `parseFloat(x.toFixed(2))`: rounding to two decimal places. -/
def round2 (q : ℚ) : ℚ :=
  (round (q * 100) : ℤ) / 100

/-- The payload built by the `dataSummary` memo of `AIInsights.tsx`. -/
structure DataSummary where
  totalSpent : ℚ
  numberOfExpenses : ℕ
  durationDays : ℤ
  spendingByCategory : List (String × ℚ)
  deriving DecidableEq

/-- The `dataSummary` memo of `AIInsights.tsx` (lines 17–40): `none` below
three expenses; otherwise the rounded converted total, the count, the
inclusive span in days from the oldest expense (`expenses[length-1]`, the
input being date-descending) to the newest (`expenses[0]`), and the rounded
per-category totals in first-seen key order. -/
def dataSummary (convert : ℚ → String → String → ℚ) (mainCurrency : String)
    (expenses : List Expense) : Option DataSummary :=
  if expenses.length < 3 then none
  else
    let totalSpent := (expenses.map (fun e => convert e.amount e.currency mainCurrency)).sum
    let firstDate := expenses.getLastI.date
    let lastDate := expenses.headI.date
    some
      { totalSpent := round2 totalSpent
        numberOfExpenses := expenses.length
        durationDays := round (lastDate - firstDate) + 1
        spendingByCategory := (CategoryChart.categoryKeys expenses).map (fun c =>
          (c, round2 (CategoryChart.categorySpend convert mainCurrency expenses c))) }

end AIInsights

namespace AIForecast

/-- One element of `recentExpenses` in the forecast payload. -/
structure RecentExpense where
  description : String
  category : String
  amount : ℚ
  deriving DecidableEq

/-- The payload built by the `analysisData` memo of `AIForecast.tsx`. -/
structure AnalysisData where
  totalBudget : ℚ
  mainCurrency : String
  totalDays : ℚ
  daysElapsed : ℚ
  daysRemaining : ℚ
  totalSpent : ℚ
  currentDailyAvg : ℚ
  recentExpenses : List RecentExpense
  deriving DecidableEq

/-- The `analysisData` memo of `AIForecast.tsx` (lines 22–58): `none` below
three expenses and `none` when `today > tripEnd` (the instant `now` is past
the midnight instant of the trip's end date); otherwise the day counts, the
converted totals and the first fifteen expenses, rounded as in the source.
`now` is the full-precision instant of `new Date()`. -/
def analysisData (convert : ℚ → String → String → ℚ) (trip : Trip)
    (expenses : List Expense) (now : ℚ) : Option AnalysisData :=
  if expenses.length < 3 then none
  else
    let totalSpent := (expenses.map (fun e => convert e.amount e.currency trip.mainCurrency)).sum
    if (trip.endDate : ℚ) < now then none
    else
      let totalDays : ℚ := max 1 (((trip.endDate - trip.startDate : ℤ) : ℚ) + 1)
      let daysElapsed : ℚ := max 1 ((⌈now - (trip.startDate : ℚ) + 1⌉ : ℤ) : ℚ)
      let daysRemaining : ℚ := max 0 (totalDays - daysElapsed)
      some
        { totalBudget := trip.totalBudget
          mainCurrency := trip.mainCurrency
          totalDays := totalDays
          daysElapsed := daysElapsed
          daysRemaining := daysRemaining
          totalSpent := AIInsights.round2 totalSpent
          currentDailyAvg := AIInsights.round2 (totalSpent / daysElapsed)
          recentExpenses := (expenses.take 15).map (fun e =>
            { description := e.description
              category := e.category
              amount := AIInsights.round2 (convert e.amount e.currency trip.mainCurrency) }) }

end AIForecast

/-! ## Sample data for concrete evaluations -/

/-- The identity converter: every currency at rate 1 (a legitimate
instantiation of the black-box `convert`). -/
def idConvert : ℚ → String → String → ℚ := fun a _ _ => a

/-- A sample ten-day trip (2024-01-01 … 2024-01-10 shifted to day numbers
0 … 9), budget 100, two declared countries. -/
def sampleTrip : Trip :=
  { startDate := 0
    endDate := 9
    mainCurrency := "EUR"
    totalBudget := 100
    countries := ["Italia", "Francia"] }

/-- The sample trip with a single declared country. -/
def soloTrip : Trip :=
  { sampleTrip with countries := ["Italia"] }

/-- A sample expense on day 0. -/
def exA : Expense :=
  { amount := 10, currency := "EUR", category := "Cibo", description := "a", date := 0 }

/-- A sample expense on day 1. -/
def exB : Expense :=
  { amount := 20, currency := "EUR", category := "Cibo", description := "b", date := 1 }

/-- A sample expense on day 1 in another category. -/
def exC : Expense :=
  { amount := 30, currency := "EUR", category := "Taxi", description := "c", date := 1 }

/-- A sample lookup table: EUR resolves to Italia. -/
def sampleLookup : String → Option String :=
  fun c => if c = "EUR" then some "Italia" else none

/-- A sample expense with an explicit country that is not declared on the
sample trip. -/
def exD : Expense :=
  { amount := 40, currency := "CHF", category := "Hotel", description := "d", date := 2,
    country := some "Svizzera" }

/-! ## Helper lemmas -/

theorem mem_insertKey {α : Type} [DecidableEq α] (ks : List α) (k a : α) :
    a ∈ insertKey ks k ↔ a ∈ ks ∨ a = k := by
  unfold insertKey
  split_ifs with h
  · constructor
    · exact fun ha => Or.inl ha
    · rintro (ha | rfl)
      · exact ha
      · exact h
  · simp [List.mem_append]

theorem mem_foldl_insertKey {α : Type} [DecidableEq α] (l : List α) :
    ∀ (ks : List α) (a : α), a ∈ l.foldl insertKey ks ↔ a ∈ ks ∨ a ∈ l := by
  induction l with
  | nil => simp
  | cons b l ih =>
    intro ks a
    rw [List.foldl_cons, ih, mem_insertKey]
    simp [or_assoc]

theorem mem_dedupKeys {α : Type} [DecidableEq α] (l : List α) (a : α) :
    a ∈ dedupKeys l ↔ a ∈ l := by
  unfold dedupKeys
  rw [mem_foldl_insertKey]
  simp

theorem nodup_insertKey {α : Type} [DecidableEq α] (ks : List α) (k : α)
    (h : ks.Nodup) : (insertKey ks k).Nodup := by
  unfold insertKey
  split_ifs with hk
  · exact h
  · simp [List.nodup_append, h, hk]

theorem nodup_foldl_insertKey {α : Type} [DecidableEq α] (l : List α) :
    ∀ ks : List α, ks.Nodup → (l.foldl insertKey ks).Nodup := by
  induction l with
  | nil => exact fun ks h => h
  | cons b l ih => exact fun ks h => ih _ (nodup_insertKey ks b h)

theorem nodup_dedupKeys {α : Type} [DecidableEq α] (l : List α) :
    (dedupKeys l).Nodup :=
  nodup_foldl_insertKey l [] List.nodup_nil

theorem chartLoop_length (s : ℤ → ℚ) (ideal : ℚ) :
    ∀ (n : ℕ) (cur : ℤ) (cum : ℚ) (de : ℕ),
      (AdvancedBudgetChart.chartLoop s ideal n cur cum de).length = n := by
  intro n
  induction n with
  | zero => intro cur cum de; rfl
  | succ n ih =>
    intro cur cum de
    simp [AdvancedBudgetChart.chartLoop, ih]

theorem chartLoop_get?_ideal (s : ℤ → ℚ) (ideal : ℚ) :
    ∀ (n : ℕ) (cur : ℤ) (cum : ℚ) (de : ℕ) (i : ℕ) (p : AdvancedBudgetChart.DataPoint),
      (AdvancedBudgetChart.chartLoop s ideal n cur cum de).get? i = some p →
      p.budgetCumulativoIdeale = ideal * ((de : ℚ) + i + 1) := by
  intro n
  induction n with
  | zero =>
    intro cur cum de i p hp
    simp [AdvancedBudgetChart.chartLoop] at hp
  | succ n ih =>
    intro cur cum de i p hp
    match i with
    | 0 =>
      rw [show (AdvancedBudgetChart.chartLoop s ideal (n + 1) cur cum de).get? 0
          = some { fullDate := cur
                   spesaGiornaliera := if s cur > 0 then some (s cur) else none
                   spesaCumulativa := cum + s cur
                   budgetCumulativoIdeale := ideal * (de + 1 : ℕ) } from rfl] at hp
      cases hp
      push_cast
      ring
    | i + 1 =>
      have hp' : (AdvancedBudgetChart.chartLoop s ideal n (cur + 1) (cum + s cur)
          (de + 1)).get? i = some p := hp
      have := ih (cur + 1) (cum + s cur) (de + 1) i p hp'
      rw [this]
      push_cast
      ring

/-- An unfolding equation for `AdvancedBudgetChart.chartData`. -/
theorem chartData_eq (convert : ℚ → String → String → ℚ) (trip : Trip)
    (expenses : List Expense) (today : ℤ) :
    AdvancedBudgetChart.chartData convert trip expenses today
      = (if (if today < trip.endDate then today else trip.endDate) < trip.startDate then []
         else AdvancedBudgetChart.chartLoop
           (AdvancedBudgetChart.dailySpending convert trip.mainCurrency expenses)
           (if trip.totalBudget > 0 then
              trip.totalBudget / max 1 (((trip.endDate - trip.startDate : ℤ) : ℚ) + 1)
            else 0)
           ((if today < trip.endDate then today else trip.endDate) + 1 - trip.startDate).toNat
           trip.startDate 0 0) := rfl

/-! ## Claim theorems -/

/-- C1: for a trip with `startDate ≤ endDate`, the generated day-bucket
sequence is empty iff `today` (the calendar day of `now`) is before the trip
start; otherwise its length is the number of whole days between the trip start
and `min(today, tripEnd)`, plus one. -/
theorem chartData_timeBuckets_length (convert : ℚ → String → String → ℚ) (trip : Trip)
    (expenses : List Expense) (today : ℤ) (h : trip.startDate ≤ trip.endDate) :
    (AdvancedBudgetChart.chartData convert trip expenses today = [] ↔ today < trip.startDate) ∧
    (trip.startDate ≤ today →
      (AdvancedBudgetChart.chartData convert trip expenses today).length
        = (min today trip.endDate - trip.startDate).toNat + 1) := by
  rw [chartData_eq]
  constructor
  · by_cases hL : (if today < trip.endDate then today else trip.endDate) < trip.startDate
    · rw [if_pos hL]
      simp only [true_iff]
      split_ifs at hL with ht <;> omega
    · rw [if_neg hL]
      constructor
      · intro he
        have : (AdvancedBudgetChart.chartLoop
            (AdvancedBudgetChart.dailySpending convert trip.mainCurrency expenses)
            (if trip.totalBudget > 0 then
               trip.totalBudget / max 1 (((trip.endDate - trip.startDate : ℤ) : ℚ) + 1)
             else 0)
            ((if today < trip.endDate then today else trip.endDate) + 1 - trip.startDate).toNat
            trip.startDate 0 0).length = 0 := by rw [he]; rfl
        rw [chartLoop_length] at this
        split_ifs at hL this with ht <;> omega
      · intro hlt
        exfalso
        split_ifs at hL with ht <;> omega
  · intro hst
    have hL : ¬ (if today < trip.endDate then today else trip.endDate) < trip.startDate := by
      split_ifs with ht <;> omega
    rw [if_neg hL, chartLoop_length]
    split_ifs with ht <;> omega

/-- C2: each generated bucket at 1-based position `k = i + 1` carries
`idealCumulativeBudget = totalBudget / max(1, wholeDays(tripStart, tripEnd) + 1) * k`
(which is `0` for every `k` when the budget is `0`), the ordinal advancing by
one per bucket starting at 1. -/
theorem chartData_idealCumulativeBudget (convert : ℚ → String → String → ℚ) (trip : Trip)
    (expenses : List Expense) (today : ℤ) (hb : 0 ≤ trip.totalBudget) (i : ℕ)
    (hi : i < (AdvancedBudgetChart.chartData convert trip expenses today).length) :
    ((AdvancedBudgetChart.chartData convert trip expenses today).get ⟨i, hi⟩).budgetCumulativoIdeale
      = trip.totalBudget / max 1 (((trip.endDate - trip.startDate : ℤ) : ℚ) + 1) * (i + 1) := by
  obtain ⟨p, hsome⟩ : ∃ p, (AdvancedBudgetChart.chartData convert trip expenses today).get? i
      = some p := ⟨_, List.get?_eq_get hi⟩
  have hget : (AdvancedBudgetChart.chartData convert trip expenses today).get ⟨i, hi⟩ = p := by
    have := List.get?_eq_get hi
    rw [hsome] at this
    exact (Option.some_inj.1 this).symm
  rw [hget]
  rw [chartData_eq] at hsome
  by_cases hL : (if today < trip.endDate then today else trip.endDate) < trip.startDate
  · rw [if_pos hL] at hsome
    simp at hsome
  · rw [if_neg hL] at hsome
    have hval := chartLoop_get?_ideal _ _ _ _ _ _ _ _ hsome
    rw [hval]
    by_cases hb0 : trip.totalBudget > 0
    · rw [if_pos hb0]
      push_cast
      ring
    · have hz : trip.totalBudget = 0 := le_antisymm (not_lt.1 hb0) hb
      rw [if_neg hb0, hz]
      simp

theorem chartData_timeBuckets_length_witness :
    sampleTrip.startDate ≤ sampleTrip.endDate ∧
    AdvancedBudgetChart.chartData idConvert sampleTrip [] (-1) = [] ∧
    (AdvancedBudgetChart.chartData idConvert sampleTrip [exA, exB, exC] 4).length
      = (min (4 : ℤ) sampleTrip.endDate - sampleTrip.startDate).toNat + 1 :=
  ⟨by decide,
   (chartData_timeBuckets_length idConvert sampleTrip [] (-1) (by decide)).1.mpr (by decide),
   (chartData_timeBuckets_length idConvert sampleTrip [exA, exB, exC] 4 (by decide)).2
     (by decide)⟩

theorem chartData_idealCumulativeBudget_witness :
    0 ≤ sampleTrip.totalBudget ∧
    ((AdvancedBudgetChart.chartData idConvert sampleTrip [] 4).get
        ⟨2, by decide⟩).budgetCumulativoIdeale
      = sampleTrip.totalBudget
          / max 1 (((sampleTrip.endDate - sampleTrip.startDate : ℤ) : ℚ) + 1) * (2 + 1) :=
  ⟨by decide, chartData_idealCumulativeBudget idConvert sampleTrip [] 4 (by decide) 2 (by decide)⟩

/-- C4: on an empty filtered expense list the summary has all three highlight
fields `null` and a zero average transaction (so the average-transaction view,
guarded by `avgTransaction > 0`, is absent as well): no divide-by-zero and no
synthetic entry. -/
theorem summary_empty_all_absent (convert : ℚ → String → String → ℚ)
    (categories : List Category) (mainCurrency : String) :
    (StatsSummary.summary convert categories mainCurrency []).largestExpense = none ∧
    (StatsSummary.summary convert categories mainCurrency []).highestSpendingDay = none ∧
    (StatsSummary.summary convert categories mainCurrency []).mostFrequentCategory = none ∧
    (StatsSummary.summary convert categories mainCurrency []).avgTransaction = 0 ∧
    ¬ 0 < (StatsSummary.summary convert categories mainCurrency []).avgTransaction := by
  refine ⟨rfl, rfl, rfl, rfl, ?_⟩
  have h : (StatsSummary.summary convert categories mainCurrency []).avgTransaction = 0 := rfl
  rw [h]
  exact lt_irrefl 0

theorem bool_and_quad (x y : Bool) : (y && (x && (y && x))) = (y && x) := by
  cases x <;> cases y <;> rfl

/-- C5: the dashboard filter is idempotent for every filter state, and the
`all` date filter with no selected categories returns the input unchanged
(order preserved). -/
theorem filteredExpenses_idempotent_and_all_id (df : Dashboard.DateFilter)
    (cats : List String) (now : ℚ) (l : List Expense) :
    Dashboard.filteredExpenses df cats now (Dashboard.filteredExpenses df cats now l)
      = Dashboard.filteredExpenses df cats now l ∧
    Dashboard.filteredExpenses .all [] now l = l := by
  refine ⟨?_, rfl⟩
  cases df <;> by_cases hc : cats.length > 0 <;>
    simp [Dashboard.filteredExpenses, hc, List.filter_filter, bool_and_quad]

/-- C6: when `now` falls on a Sunday the computed week start is the previous
Monday, six days back (and in general the week start is the Monday of the
current week, at most six days back); the week filter keeps exactly the
expenses dated on or after that Monday midnight, with no upper bound. -/
theorem weekFilter_monday_boundary (now : ℚ) (l : List Expense) :
    (Dashboard.jsGetDay ⌊now⌋ = 0 → Dashboard.weekStart ⌊now⌋ = ⌊now⌋ - 6) ∧
    Dashboard.jsGetDay (Dashboard.weekStart ⌊now⌋) = 1 ∧
    Dashboard.weekStart ⌊now⌋ ≤ ⌊now⌋ ∧
    ⌊now⌋ - Dashboard.weekStart ⌊now⌋ < 7 ∧
    Dashboard.filteredExpenses .week [] now l
      = l.filter (fun e => decide ((Dashboard.weekStart ⌊now⌋ : ℚ) ≤ e.date)) := by
  refine ⟨?_, ?_, ?_, ?_, rfl⟩
  · intro h0
    simp only [Dashboard.jsGetDay] at h0
    simp only [Dashboard.weekStart, Dashboard.jsGetDay]
    rw [if_pos h0]
    omega
  · simp only [Dashboard.weekStart, Dashboard.jsGetDay]
    split_ifs with h <;> omega
  · simp only [Dashboard.weekStart, Dashboard.jsGetDay]
    split_ifs with h <;> omega
  · simp only [Dashboard.weekStart, Dashboard.jsGetDay]
    split_ifs with h <;> omega

theorem weekFilter_monday_boundary_witness :
    Dashboard.jsGetDay ⌊(3.5 : ℚ)⌋ = 0 ∧
    Dashboard.weekStart ⌊(3.5 : ℚ)⌋ = ⌊(3.5 : ℚ)⌋ - 6 :=
  ⟨by norm_num [Dashboard.jsGetDay],
   (weekFilter_monday_boundary 3.5 []).1 (by norm_num [Dashboard.jsGetDay])⟩

/-- C9: with fewer than three filtered expenses both insight payload builders
yield `none`; and the forecast payload is `none` whenever the trip's end date
is already in the past (its calendar day is before the day of `now`),
regardless of how many expenses there are. -/
theorem insight_payload_not_applicable (convert : ℚ → String → String → ℚ) (trip : Trip)
    (expenses : List Expense) (now : ℚ) :
    (expenses.length < 3 →
      AIInsights.dataSummary convert trip.mainCurrency expenses = none ∧
      AIForecast.analysisData convert trip expenses now = none) ∧
    (trip.endDate < ⌊now⌋ → AIForecast.analysisData convert trip expenses now = none) := by
  constructor
  · intro h
    constructor
    · simp [AIInsights.dataSummary, h]
    · simp [AIForecast.analysisData, h]
  · intro h
    have hlt : (trip.endDate : ℚ) < now := by
      have h1 : ((trip.endDate : ℤ) : ℚ) < ((⌊now⌋ : ℤ) : ℚ) := by exact_mod_cast h
      exact h1.trans_le (Int.floor_le now)
    by_cases h3 : expenses.length < 3 <;>
      simp [AIForecast.analysisData, h3, hlt]

theorem insight_payload_not_applicable_witness :
    ([exA, exB] : List Expense).length < 3 ∧
    AIInsights.dataSummary idConvert sampleTrip.mainCurrency [exA, exB] = none ∧
    AIForecast.analysisData idConvert sampleTrip [exA, exB] 20 = none ∧
    sampleTrip.endDate < ⌊(20 : ℚ)⌋ ∧
    AIForecast.analysisData idConvert sampleTrip [exA, exB, exC] 20 = none :=
  ⟨by decide,
   ((insight_payload_not_applicable idConvert sampleTrip [exA, exB] 20).1 (by decide)).1,
   ((insight_payload_not_applicable idConvert sampleTrip [exA, exB] 20).1 (by decide)).2,
   by norm_num [sampleTrip],
   (insight_payload_not_applicable idConvert sampleTrip [exA, exB, exC] 20).2
     (by norm_num [sampleTrip])⟩

theorem mem_categoryKeys (expenses : List Expense) (c : String) :
    c ∈ CategoryChart.categoryKeys expenses ↔ ∃ e ∈ expenses, e.category = c := by
  unfold CategoryChart.categoryKeys
  rw [mem_dedupKeys]
  simp

theorem categorySpend_pos (convert : ℚ → String → String → ℚ) (mainCurrency : String)
    (expenses : List Expense)
    (hpos : ∀ e ∈ expenses, 0 < convert e.amount e.currency mainCurrency)
    (c : String) (hc : ∃ e ∈ expenses, e.category = c) :
    0 < CategoryChart.categorySpend convert mainCurrency expenses c := by
  obtain ⟨e, he, hec⟩ := hc
  unfold CategoryChart.categorySpend
  apply List.sum_pos
  · intro x hx
    obtain ⟨e', he', rfl⟩ := List.mem_map.1 hx
    exact hpos e' (List.mem_filter.1 he').1
  · have hmem : e ∈ expenses.filter (fun e => e.category == c) :=
      List.mem_filter.2 ⟨he, by simp [hec]⟩
    exact List.ne_nil_of_mem (List.mem_map_of_mem _ hmem)

theorem totalSpent_pos (convert : ℚ → String → String → ℚ) (mainCurrency : String)
    (expenses : List Expense) (hne : expenses ≠ [])
    (hpos : ∀ e ∈ expenses, 0 < convert e.amount e.currency mainCurrency) :
    0 < CategoryChart.totalSpent convert mainCurrency expenses := by
  unfold CategoryChart.totalSpent
  apply List.sum_pos
  · intro x hx
    obtain ⟨c, hc, rfl⟩ := List.mem_map.1 hx
    exact categorySpend_pos convert mainCurrency expenses hpos c
      ((mem_categoryKeys expenses c).1 hc)
  · cases expenses with
    | nil => exact absurd rfl hne
    | cons e es' =>
      have hmem : e.category ∈ CategoryChart.categoryKeys (e :: es') :=
        (mem_categoryKeys _ _).2 ⟨e, by simp, rfl⟩
      exact List.ne_nil_of_mem (List.mem_map_of_mem _ hmem)

theorem sum_map_div_mul (l : List ℚ) (t k : ℚ) :
    (l.map (fun x => x / t * k)).sum = l.sum / t * k := by
  induction l with
  | nil => simp
  | cons a l ih =>
    simp only [List.map_cons, List.sum_cons, ih]
    ring

/-- C3: for a non-empty expense list whose converted amounts are positive
(the data-model invariant `amount > 0` under any genuine rate table), every
category slice carries `percentageOfTotal = amount / total * 100`, the slice
percentages sum to exactly 100, and a slice percentage is 0 exactly when the
total is 0 (both sides being false here, the total being positive). -/
theorem dataByCategory_percentages (convert : ℚ → String → String → ℚ)
    (mainCurrency : String) (expenses : List Expense) (hne : expenses ≠ [])
    (hpos : ∀ e ∈ expenses, 0 < convert e.amount e.currency mainCurrency) :
    (∀ s ∈ CategoryChart.dataByCategory convert mainCurrency expenses,
       s.percentage
         = s.amount / CategoryChart.totalSpent convert mainCurrency expenses * 100) ∧
    ((CategoryChart.dataByCategory convert mainCurrency expenses).map
       (fun s => s.percentage)).sum = 100 ∧
    (∀ s ∈ CategoryChart.dataByCategory convert mainCurrency expenses,
       (s.percentage = 0 ↔ CategoryChart.totalSpent convert mainCurrency expenses = 0)) := by
  have htot : 0 < CategoryChart.totalSpent convert mainCurrency expenses :=
    totalSpent_pos convert mainCurrency expenses hne hpos
  have hmem : ∀ s ∈ CategoryChart.dataByCategory convert mainCurrency expenses,
      ∃ c ∈ CategoryChart.categoryKeys expenses,
        s = CategoryChart.categorySlice convert mainCurrency expenses c := by
    intro s hs
    have hs' := (List.mergeSort_perm _ _).mem_iff.1 hs
    obtain ⟨c, hc, rfl⟩ := List.mem_map.1 hs'
    exact ⟨c, hc, rfl⟩
  refine ⟨?_, ?_, ?_⟩
  · intro s hs
    obtain ⟨c, hc, rfl⟩ := hmem s hs
    simp [CategoryChart.categorySlice, htot]
  · have hperm :
        ((CategoryChart.dataByCategory convert mainCurrency expenses).map
          (fun s => s.percentage)).Perm
        (((CategoryChart.categoryKeys expenses).map
          (CategoryChart.categorySlice convert mainCurrency expenses)).map
          (fun s => s.percentage)) :=
      (List.mergeSort_perm _ _).map _
    rw [hperm.sum_eq, List.map_map]
    have hpt : ((CategoryChart.categoryKeys expenses).map
          ((fun s => s.percentage) ∘ CategoryChart.categorySlice convert mainCurrency expenses))
        = ((CategoryChart.categoryKeys expenses).map
            (CategoryChart.categorySpend convert mainCurrency expenses)).map
          (fun x => x / CategoryChart.totalSpent convert mainCurrency expenses * 100) := by
      rw [List.map_map]
      apply List.map_congr_left
      intro c _
      simp [CategoryChart.categorySlice, htot]
    rw [hpt, sum_map_div_mul]
    have htdef : ((CategoryChart.categoryKeys expenses).map
          (CategoryChart.categorySpend convert mainCurrency expenses)).sum
        = CategoryChart.totalSpent convert mainCurrency expenses := rfl
    rw [htdef, div_self (ne_of_gt htot), one_mul]
  · intro s hs
    obtain ⟨c, hc, rfl⟩ := hmem s hs
    have hcs : 0 < CategoryChart.categorySpend convert mainCurrency expenses c :=
      categorySpend_pos convert mainCurrency expenses hpos c
        ((mem_categoryKeys expenses c).1 hc)
    have hval : (CategoryChart.categorySlice convert mainCurrency expenses c).percentage
        = CategoryChart.categorySpend convert mainCurrency expenses c
            / CategoryChart.totalSpent convert mainCurrency expenses * 100 := by
      simp [CategoryChart.categorySlice, htot]
    constructor
    · intro h0
      rw [hval] at h0
      have hppos : 0 < CategoryChart.categorySpend convert mainCurrency expenses c
          / CategoryChart.totalSpent convert mainCurrency expenses * 100 :=
        mul_pos (div_pos hcs htot) (by norm_num)
      exact absurd h0.symm (ne_of_lt hppos)
    · intro h0
      exact absurd h0.symm (ne_of_lt htot)

theorem dataByCategory_percentages_witness :
    ([exA, exB, exC] : List Expense) ≠ [] ∧
    ((CategoryChart.dataByCategory idConvert "EUR" [exA, exB, exC]).map
      (fun s => s.percentage)).sum = 100 :=
  ⟨by decide,
   (dataByCategory_percentages idConvert "EUR" [exA, exB, exC] (by decide)
     (by decide)).2.1⟩

/-- C7: a zero-spend day always gets the no-spend rendering; for a day with
positive spend (and spend at most the maximum, as holds for every day of the
map), the chosen band is exactly the one determined by comparing the intensity
`sqrt(spentToday / maxSpentAnyDay)` against the thresholds 0.25, 0.5, 0.75;
and the day whose total equals a positive `maxSpend` always lands in the
highest band. -/
theorem heatmap_intensity_bands (convert : ℚ → String → String → ℚ)
    (mainCurrency : String) (expenses : List Expense) (a m : ℚ) :
    (a ≤ 0 → ExpenseCalendarHeatmap.getColor m a = "bg-surface-variant/50") ∧
    (0 < a → a ≤ m →
      ((ExpenseCalendarHeatmap.getColor m a = "bg-primary-container/40"
          ↔ Real.sqrt ((a : ℝ) / (m : ℝ)) < 1 / 4) ∧
       (ExpenseCalendarHeatmap.getColor m a = "bg-primary-container/70"
          ↔ 1 / 4 ≤ Real.sqrt ((a : ℝ) / (m : ℝ)) ∧ Real.sqrt ((a : ℝ) / (m : ℝ)) < 1 / 2) ∧
       (ExpenseCalendarHeatmap.getColor m a = "bg-primary-container"
          ↔ 1 / 2 ≤ Real.sqrt ((a : ℝ) / (m : ℝ)) ∧ Real.sqrt ((a : ℝ) / (m : ℝ)) < 3 / 4) ∧
       (ExpenseCalendarHeatmap.getColor m a = "bg-primary"
          ↔ 3 / 4 ≤ Real.sqrt ((a : ℝ) / (m : ℝ))))) ∧
    (0 < ExpenseCalendarHeatmap.maxSpend convert mainCurrency expenses →
      ExpenseCalendarHeatmap.getColor
        (ExpenseCalendarHeatmap.maxSpend convert mainCurrency expenses)
        (ExpenseCalendarHeatmap.maxSpend convert mainCurrency expenses) = "bg-primary") := by
  refine ⟨?_, ?_, ?_⟩
  · intro ha
    simp [ExpenseCalendarHeatmap.getColor, ha]
  · intro ha ham
    have hm : 0 < m := lt_of_lt_of_le ha ham
    have hga : ¬ a ≤ 0 := not_le.2 ha
    have hgm : ¬ m ≤ 0 := not_le.2 hm
    have hxq : ((a / m : ℚ) : ℝ) = (a : ℝ) / (m : ℝ) := by push_cast; ring
    have key : ∀ t : ℚ, 0 < t →
        (Real.sqrt ((a : ℝ) / (m : ℝ)) < (t : ℝ) ↔ a / m < t ^ 2) := by
      intro t ht
      rw [Real.sqrt_lt' (by exact_mod_cast ht), ← hxq]
      constructor
      · intro h
        exact_mod_cast h
      · intro h
        exact_mod_cast h
    have kq : ∀ t : ℚ, 0 < t →
        ((t : ℝ) ≤ Real.sqrt ((a : ℝ) / (m : ℝ)) ↔ t ^ 2 ≤ a / m) := by
      intro t ht
      rw [← not_lt, key t ht, not_lt]
    have k1 := key (1 / 4) (by norm_num)
    have k2 := key (1 / 2) (by norm_num)
    have k3 := key (3 / 4) (by norm_num)
    have q1 := kq (1 / 4) (by norm_num)
    have q2 := kq (1 / 2) (by norm_num)
    have q3 := kq (3 / 4) (by norm_num)
    rw [show ((1 / 4 : ℚ) : ℝ) = 1 / 4 by norm_num] at k1 q1
    rw [show ((1 / 2 : ℚ) : ℝ) = 1 / 2 by norm_num] at k2 q2
    rw [show ((3 / 4 : ℚ) : ℝ) = 3 / 4 by norm_num] at k3 q3
    rcases lt_or_le (a / m) ((1 / 4 : ℚ) ^ 2) with h1 | h1
    · have hcolor : ExpenseCalendarHeatmap.getColor m a = "bg-primary-container/40" := by
        simp only [ExpenseCalendarHeatmap.getColor, if_neg hga, if_neg hgm, if_pos h1]
      have hs1 : Real.sqrt ((a : ℝ) / (m : ℝ)) < 1 / 4 := k1.mpr h1
      rw [hcolor]
      refine ⟨iff_of_true rfl hs1, iff_of_false (by decide) ?_, iff_of_false (by decide) ?_,
        iff_of_false (by decide) ?_⟩
      · rintro ⟨hle, -⟩
        exact absurd hle (not_le.2 hs1)
      · rintro ⟨hle, -⟩
        exact absurd hle (not_le.2 (hs1.trans (by norm_num)))
      · intro hle
        exact absurd hle (not_le.2 (hs1.trans (by norm_num)))
    · rcases lt_or_le (a / m) ((1 / 2 : ℚ) ^ 2) with h2 | h2
      · have hcolor : ExpenseCalendarHeatmap.getColor m a = "bg-primary-container/70" := by
          simp only [ExpenseCalendarHeatmap.getColor, if_neg hga, if_neg hgm,
            if_neg (not_lt.2 h1), if_pos h2]
        have hs1 : (1 / 4 : ℝ) ≤ Real.sqrt ((a : ℝ) / (m : ℝ)) := q1.mpr h1
        have hs2 : Real.sqrt ((a : ℝ) / (m : ℝ)) < 1 / 2 := k2.mpr h2
        rw [hcolor]
        refine ⟨iff_of_false (by decide) (not_lt.2 hs1), iff_of_true rfl ⟨hs1, hs2⟩,
          iff_of_false (by decide) ?_, iff_of_false (by decide) ?_⟩
        · rintro ⟨hle, -⟩
          exact absurd hle (not_le.2 hs2)
        · intro hle
          exact absurd hle (not_le.2 (hs2.trans (by norm_num)))
      · rcases lt_or_le (a / m) ((3 / 4 : ℚ) ^ 2) with h3 | h3
        · have hcolor : ExpenseCalendarHeatmap.getColor m a = "bg-primary-container" := by
            simp only [ExpenseCalendarHeatmap.getColor, if_neg hga, if_neg hgm,
              if_neg (not_lt.2 h1), if_neg (not_lt.2 h2), if_pos h3]
          have hs2 : (1 / 2 : ℝ) ≤ Real.sqrt ((a : ℝ) / (m : ℝ)) := q2.mpr h2
          have hs3 : Real.sqrt ((a : ℝ) / (m : ℝ)) < 3 / 4 := k3.mpr h3
          rw [hcolor]
          refine ⟨iff_of_false (by decide) (not_lt.2 ((by norm_num : (1 / 4 : ℝ) ≤ 1 / 2).trans hs2)),
            iff_of_false (by decide) ?_, iff_of_true rfl ⟨hs2, hs3⟩,
            iff_of_false (by decide) (not_le.2 hs3)⟩
          rintro ⟨-, hlt⟩
          exact absurd hlt (not_lt.2 hs2)
        · have hcolor : ExpenseCalendarHeatmap.getColor m a = "bg-primary" := by
            simp only [ExpenseCalendarHeatmap.getColor, if_neg hga, if_neg hgm,
              if_neg (not_lt.2 h1), if_neg (not_lt.2 h2), if_neg (not_lt.2 h3)]
          have hs3 : (3 / 4 : ℝ) ≤ Real.sqrt ((a : ℝ) / (m : ℝ)) := q3.mpr h3
          rw [hcolor]
          refine ⟨iff_of_false (by decide) (not_lt.2 ((by norm_num : (1 / 4 : ℝ) ≤ 3 / 4).trans hs3)),
            iff_of_false (by decide) ?_, iff_of_false (by decide) ?_, iff_of_true rfl hs3⟩
          · rintro ⟨-, hlt⟩
            exact absurd hlt (not_lt.2 ((by norm_num : (1 / 2 : ℝ) ≤ 3 / 4).trans hs3))
          · rintro ⟨-, hlt⟩
            exact absurd hlt (not_lt.2 hs3)
  · intro hM
    have hMne : ExpenseCalendarHeatmap.maxSpend convert mainCurrency expenses ≠ 0 :=
      ne_of_gt hM
    unfold ExpenseCalendarHeatmap.getColor
    rw [if_neg (not_le.2 hM), if_neg (not_le.2 hM), div_self hMne]
    norm_num

theorem heatmap_intensity_bands_witness :
    ExpenseCalendarHeatmap.getColor 4 0 = "bg-surface-variant/50" ∧
    ExpenseCalendarHeatmap.getColor 4 2 = "bg-primary-container" ∧
    0 < ExpenseCalendarHeatmap.maxSpend idConvert "EUR" [exA] ∧
    ExpenseCalendarHeatmap.getColor (ExpenseCalendarHeatmap.maxSpend idConvert "EUR" [exA])
      (ExpenseCalendarHeatmap.maxSpend idConvert "EUR" [exA]) = "bg-primary" := by
  have hM : 0 < ExpenseCalendarHeatmap.maxSpend idConvert "EUR" [exA] := by
    norm_num [ExpenseCalendarHeatmap.maxSpend, ExpenseCalendarHeatmap.dailyDataMax, exA, idConvert]
  refine ⟨?_, ?_, hM, ?_⟩
  · exact (heatmap_intensity_bands idConvert "EUR" [] 0 4).1 le_rfl
  · apply ((heatmap_intensity_bands idConvert "EUR" [] 2 4).2.1 (by norm_num) (by norm_num)).2.2.1.mpr
    have hc : ((2 : ℚ) : ℝ) / ((4 : ℚ) : ℝ) = 1 / 2 := by norm_num
    rw [hc]
    constructor
    · rw [Real.le_sqrt (by norm_num) (by norm_num)]
      norm_num
    · rw [Real.sqrt_lt' (by norm_num)]
      norm_num
  · exact (heatmap_intensity_bands idConvert "EUR" [exA] 0 0).2.2 hM

/-- C8: the country key is the expense's explicit non-empty `country` field
when present and otherwise the currency→country lookup; an expense that
resolves to no country, or to a country outside the trip's declared set,
changes nothing in the country aggregation (it is silently excluded, the
aggregation never fails); and the resulting series is sorted descending by
converted amount. -/
theorem countryChart_resolution_and_exclusion (convert : ℚ → String → String → ℚ)
    (lookup : String → Option String) (trip : Trip) (expenses : List Expense) (e : Expense) :
    (∀ c, e.country = some c → c ≠ "" → CountrySpendChart.resolveCountry lookup e = some c) ∧
    (e.country = none → lookup e.currency = none →
      CountrySpendChart.resolveCountry lookup e = none) ∧
    (e.country = none → ∀ c, lookup e.currency = some c → c ≠ "" →
      CountrySpendChart.resolveCountry lookup e = some c) ∧
    ((∀ c, CountrySpendChart.resolveCountry lookup e = some c → c ∉ trip.countries) →
      CountrySpendChart.chartData convert lookup trip (e :: expenses)
        = CountrySpendChart.chartData convert lookup trip expenses) ∧
    List.Pairwise (fun s t : CountrySpendChart.CountrySlice => t.amount ≤ s.amount)
      (CountrySpendChart.chartData convert lookup trip expenses) := by
  refine ⟨?_, ?_, ?_, ?_, ?_⟩
  · intro c hc hne
    simp [CountrySpendChart.resolveCountry, hc, hne]
  · intro h1 h2
    simp [CountrySpendChart.resolveCountry, h1, h2]
  · intro h1 c hc hne
    simp [CountrySpendChart.resolveCountry, h1, hc, hne]
  · intro hex
    unfold CountrySpendChart.chartData
    by_cases hle : trip.countries.length ≤ 1
    · simp [hle]
    · rw [if_neg hle, if_neg hle]
      have hmapeq : ∀ c ∈ dedupKeys trip.countries,
          CountrySpendChart.countrySlice convert lookup trip.mainCurrency (e :: expenses) c
            = CountrySpendChart.countrySlice convert lookup trip.mainCurrency expenses c := by
        intro c hc
        have hne : ¬ (CountrySpendChart.resolveCountry lookup e == some c) = true := by
          intro hbeq
          have hres : CountrySpendChart.resolveCountry lookup e = some c := by
            simpa using hbeq
          exact hex c hres ((mem_dedupKeys _ _).1 hc)
        simp only [CountrySpendChart.countrySlice, CountrySpendChart.countryTotal]
        rw [List.filter_cons, if_neg hne]
      rw [List.map_congr_left hmapeq]
  · by_cases hle : trip.countries.length ≤ 1
    · simp [CountrySpendChart.chartData, hle]
    · unfold CountrySpendChart.chartData
      rw [if_neg hle]
      apply List.Pairwise.imp (fun hab => of_decide_eq_true hab)
      apply List.sorted_mergeSort
      · intro a b c hab hbc
        rw [decide_eq_true_iff] at *
        exact le_trans hbc hab
      · intro a b
        rcases le_total a.amount b.amount with h | h <;> simp [h]

theorem countryChart_resolution_and_exclusion_witness :
    CountrySpendChart.resolveCountry sampleLookup exD = some "Svizzera" ∧
    CountrySpendChart.resolveCountry sampleLookup exA = some "Italia" ∧
    CountrySpendChart.chartData idConvert sampleLookup sampleTrip (exD :: [exA])
      = CountrySpendChart.chartData idConvert sampleLookup sampleTrip [exA] := by
  refine ⟨?_, ?_, ?_⟩
  · exact (countryChart_resolution_and_exclusion idConvert sampleLookup sampleTrip [] exD).1
      "Svizzera" rfl (by decide)
  · exact (countryChart_resolution_and_exclusion idConvert sampleLookup sampleTrip []
      exA).2.2.1 rfl "Italia" (by decide) (by decide)
  · apply (countryChart_resolution_and_exclusion idConvert sampleLookup sampleTrip
      [exA] exD).2.2.2.1
    intro c hc
    have hc' : c = "Svizzera" := by
      have hres : CountrySpendChart.resolveCountry sampleLookup exD = some "Svizzera" := by
        simp +decide [CountrySpendChart.resolveCountry, exD]
      rw [hres] at hc
      exact (Option.some_inj.1 hc).symm
    subst hc'
    decide

/-- C10: with at most one declared country the per-country series is empty,
whatever the expenses; and every slice that does appear has a strictly
positive converted amount and names one of the trip's declared countries. -/
theorem countryChart_suppression_and_positivity (convert : ℚ → String → String → ℚ)
    (lookup : String → Option String) (trip : Trip) (expenses : List Expense) :
    (trip.countries.length ≤ 1 →
      CountrySpendChart.chartData convert lookup trip expenses = []) ∧
    (∀ s ∈ CountrySpendChart.chartData convert lookup trip expenses,
      0 < s.amount ∧ s.country ∈ trip.countries) := by
  constructor
  · intro h
    simp [CountrySpendChart.chartData, h]
  · intro s hs
    by_cases hle : trip.countries.length ≤ 1
    · rw [CountrySpendChart.chartData, if_pos hle] at hs
      simp at hs
    · rw [CountrySpendChart.chartData, if_neg hle] at hs
      have hs' := (List.mergeSort_perm _ _).mem_iff.1 hs
      obtain ⟨hmap, hpos⟩ := List.mem_filter.1 hs'
      refine ⟨of_decide_eq_true hpos, ?_⟩
      obtain ⟨c, hc, rfl⟩ := List.mem_map.1 hmap
      simpa [CountrySpendChart.countrySlice] using (mem_dedupKeys _ _).1 hc

theorem countryChart_suppression_and_positivity_witness :
    CountrySpendChart.chartData idConvert sampleLookup soloTrip [exA, exB, exC] = [] ∧
    (0 < ({ country := "Italia", amount := 10 } : CountrySpendChart.CountrySlice).amount ∧
      ({ country := "Italia", amount := 10 } : CountrySpendChart.CountrySlice).country
        ∈ sampleTrip.countries) := by
  constructor
  · exact (countryChart_suppression_and_positivity idConvert sampleLookup soloTrip
      [exA, exB, exC]).1 (by decide)
  · apply (countryChart_suppression_and_positivity idConvert sampleLookup sampleTrip [exA]).2
    simp +decide [CountrySpendChart.chartData, CountrySpendChart.countrySlice,
      CountrySpendChart.countryTotal, CountrySpendChart.resolveCountry, dedupKeys, insertKey,
      sampleTrip, sampleLookup, exA, idConvert]
